import Mathlib

/-!
Verification of the event-dispatch and task-scheduling core in
`src/pmxbot/irc.py` (classes `WarnHistory` and `LoggingCommandBot`).

The embedding is shallow: each Python method is translated into a pure
Lean function; mutable object state (`self._scheduled_tasks`, the
reactor's armed commands, the `WarnHistory` dict, `self._channels`)
is threaded explicitly, and observable effects (handler invocations,
log records, notices, sleeps, sends) are returned as event lists.
Exceptions are modelled with an explicit `PyError` value; a method that
mutates state and then raises returns the mutated state alongside the
error, exactly as the Python object would retain the mutation.
-/

namespace Pmxbot

/-! ## Python `datetime` values

`datetime.datetime` is a subclass of `datetime.date` in Python, so an
`isinstance(x, datetime.date)` test is also true for `datetime` values;
the `When` shape analysis below reproduces that. -/

structure PDate where
  year : Nat
  month : Nat
  day : Nat
deriving DecidableEq, Repr

structure PTime where
  hour : Nat
  minute : Nat
  second : Nat
deriving DecidableEq, Repr

structure PDateTime where
  date : PDate
  time : PTime
deriving DecidableEq, Repr

/-- `datetime.time(0, 0, tzinfo=pytz.UTC)` — midnight. -/
def midnight : PTime := ⟨0, 0, 0⟩

/-- The dynamic type of a task's `when` value: a `datetime.datetime`, a
bare `datetime.date`, a `datetime.time`, or any other value. -/
inductive When
  | dt : PDateTime → When
  | d : PDate → When
  | t : PTime → When
  | other : When
deriving DecidableEq, Repr

/-- `isinstance(w, datetime.date)`; true for `datetime.datetime` values
as well, since `datetime` subclasses `date`. -/
def When.isinstanceDate : When → Bool
  | .dt _ => true
  | .d _ => true
  | _ => false

/-- `datetime.datetime.combine(w, t)` for a `w` passing the
`isinstance(w, datetime.date)` test: when `w` is itself a `datetime`,
its time component is ignored (Python documents this), so only the
calendar date survives. -/
def combineWithTime (w : When) (tm : PTime) : When :=
  match w with
  | .dt x => .dt ⟨x.date, tm⟩
  | .d x => .dt ⟨x, tm⟩
  | x => x

/-! ## Errors and callables -/

inductive PyError
  | valueError : String → PyError
  | typeError : String → PyError
deriving DecidableEq, Repr

/-- A Python value as it appears among the positional arguments bound by
`functools` into a runner callable: a string (channel name), an opaque
handler function reference, or a 2-tuple of values. -/
inductive PyVal
  | str : String → PyVal
  | func : Nat → PyVal
  | pair : PyVal → PyVal → PyVal
deriving DecidableEq, Repr

/-- A command armed on the transport's timer subsystem, with the
positional arguments pre-bound into its runner callable. -/
inductive Cmd
  | delayedAt : PDateTime → List PyVal → Cmd
  | dailyAt : PTime → List PyVal → Cmd
  | every : Nat → List PyVal → Cmd
  | delayed : Nat → List PyVal → Cmd
deriving DecidableEq, Repr

/-! ## `LoggingCommandBot._schedule_at` -/

/-- The identity key `unique_task = (func, name, channel, when, doc)`. -/
structure TaskKey where
  func : Nat
  name : String
  channel : String
  when : When
  doc : String
deriving DecidableEq, Repr

/-- The bot state touched by `_schedule_at`: the `self._scheduled_tasks`
dedup set and the commands armed on `conn.reactor`. The Python set is
modelled as a list extended only when membership fails. -/
structure SchedState where
  scheduledTasks : List TaskKey
  timers : List Cmd
deriving DecidableEq, Repr

/-- Embeds `LoggingCommandBot._schedule_at` (irc.py lines 102-120).
Returns the post-call state together with `.ok` or the raised error;
note the dedup insertion happens before the `when` shape checks, and
that a `datetime` value passes the `isinstance(when, datetime.date)`
test and is therefore rewritten by `datetime.combine` to midnight UTC
of its calendar date before the timer is armed. -/
def scheduleAt (st : SchedState) (name channel : String) (w : When)
    (func : Nat) (doc : String) : SchedState × Except PyError Unit :=
  let uniqueTask : TaskKey := ⟨func, name, channel, w, doc⟩
  if uniqueTask ∈ st.scheduledTasks then (st, .ok ())
  else
    let st1 : SchedState :=
      { st with scheduledTasks := st.scheduledTasks ++ [uniqueTask] }
    let runnerFunc : List PyVal := [.str channel, .func func]
    let w1 := if w.isinstanceDate then combineWithTime w midnight else w
    match w1 with
    | .dt x => ({ st1 with timers := st1.timers ++ [.delayedAt x runnerFunc] }, .ok ())
    | .t x => ({ st1 with timers := st1.timers ++ [.dailyAt x runnerFunc] }, .ok ())
    | _ => (st1, .error (.valueError "when must be datetime, date, or time"))

/-! ## `background_runner` and the delayed-task arming loop of `on_welcome` -/

/-- Calling `self.background_runner(channel, func)` (irc.py line 223):
Python binds exactly two positional arguments to the parameters
`channel` and `func`; any other arity raises `TypeError` before the
body runs. On a successful call the handler `func` executes and its
results are delivered to `channel`, which we record as the bound pair. -/
def callBackgroundRunner : List PyVal → Except PyError (PyVal × PyVal)
  | [c, f] => .ok (c, f)
  | args =>
    .error (.typeError ("background_runner takes 2 positional arguments but "
      ++ toString args.length ++ " were given"))

/-- Firing an armed command calls its runner callable, i.e. invokes
`background_runner` on the pre-bound positional arguments. -/
def fire : Cmd → Except PyError (PyVal × PyVal)
  | .delayedAt _ r => callBackgroundRunner r
  | .dailyAt _ r => callBackgroundRunner r
  | .every _ r => callBackgroundRunner r
  | .delayed _ r => callBackgroundRunner r

/-- A registered delayed/periodic handler (`core.DelayHandler`), as used
by `on_welcome`: its target channel, handler function reference, repeat
flag and duration. -/
structure DelayHandler where
  channel : String
  func : Nat
  repeats : Bool
  duration : Nat
deriving DecidableEq, Repr

/-- Embeds the delayed-task arming loop of `on_welcome` (irc.py lines
136-143): `arguments = handler.channel, handler.func` builds a tuple,
and `functools` then binds that single tuple — not the two elements —
as the one pre-bound positional argument of the runner callable. -/
def armDelayHandlers (registry : List DelayHandler) : List Cmd :=
  registry.map fun handler =>
    let arguments : PyVal := .pair (.str handler.channel) (.func handler.func)
    let runner : List PyVal := [arguments]
    if handler.repeats then .every handler.duration runner
    else .delayed handler.duration runner

/-! ## Handler fan-out (`on_join` / `on_leave`) -/

/-- An externally registered event handler; `raises` says whether its
invocation raises an exception. -/
structure EvHandler where
  id : Nat
  raises : Bool
deriving DecidableEq, Repr

/-- Observable events of the dispatch path: a handler starting to run,
an exception caught and logged by the dispatcher (`log.exception`), and
a `connection.notice(nick, line)` call. -/
inductive Ev
  | invoked : Nat → Ev
  | errorLogged : Nat → Ev
  | notice : String → String → Ev
deriving DecidableEq, Repr

/-- The `for handler in registry: try: handler.attach(locals())()
except Exception: log.exception(...)` loop shared by `on_join` (lines
174-178) and `on_leave` (lines 190-194): every handler is invoked; an
exception is caught and logged and the loop continues. -/
def runHandlers : List EvHandler → List Ev
  | [] => []
  | h :: rest =>
    (if h.raises then [Ev.invoked h.id, Ev.errorLogged h.id]
     else [Ev.invoked h.id]) ++ runHandlers rest

def countInvoked (i : Nat) : List Ev → Nat
  | [] => 0
  | .invoked j :: rest => (if j = i then 1 else 0) + countInvoked i rest
  | _ :: rest => countInvoked i rest

def countErrorLogged (i : Nat) : List Ev → Nat
  | [] => 0
  | .errorLogged j :: rest => (if j = i then 1 else 0) + countErrorLogged i rest
  | _ :: rest => countErrorLogged i rest

/-! ## `WarnHistory` -/

/-- The configuration options read by this core. -/
structure Config where
  privacyWarningSuppress : Bool
  logChannels : List String

/-- The `WarnHistory` dict: identity → last-warned timestamp (seconds). -/
abbrev WarnHistory := List (String × Int)

def lookup : WarnHistory → String → Option Int
  | [], _ => none
  | (k, v) :: rest, key => if k = key then some v else lookup rest key

/-- Dict update `self[key] = now`. -/
def setKey : WarnHistory → String → Int → WarnHistory
  | [], key, v => [(key, v)]
  | (k, w) :: rest, key, v =>
    if k = key then (key, v) :: rest else (k, w) :: setKey rest key v

/-- `WarnHistory.warn_every = datetime.timedelta(seconds=60)`. -/
def warnEvery : Int := 60

/-- `WarnHistory._expired(last, now)` (line 40): `now - last > warn_every`. -/
def expired (last now : Int) : Bool := now - last > warnEvery

/-- Embeds `WarnHistory.needs_warning` (lines 33-38): if the key is
absent or expired, record `now` and return true; else return false and
leave the dict untouched. -/
def needsWarning (wh : WarnHistory) (key : String) (now : Int) :
    Bool × WarnHistory :=
  match lookup wh key with
  | none => (true, setKey wh key now)
  | some last =>
    if expired last now then (true, setKey wh key now) else (false, wh)

/-- The lines of `warn_message` after `textwrap.dedent` and `lstrip`,
with `logged_channels_string` substituted, as split by `splitlines`. -/
def warnMessageLines (loggedChannelsString : String) : List String :=
  ["PRIVACY INFORMATION: LOGGING IS ENABLED!!",
   "",
   "The following channels are being logged to provide a",
   "convenient, searchable archive of conversation histories:",
   loggedChannelsString]

/-- Embeds `WarnHistory.warn` (lines 43-51): the suppression flag is
checked first and returns before `needs_warning` runs, so neither a
lookup nor an update happens; otherwise one notice is sent per line of
the warning template when `needs_warning` says so. -/
def warn (cfg : Config) (wh : WarnHistory) (nick : String) (now : Int) :
    WarnHistory × List Ev :=
  if cfg.privacyWarningSuppress then (wh, [])
  else
    let r := needsWarning wh nick now
    if r.1 then
      let loggedChannelsString := String.intercalate ", " cfg.logChannels
      (r.2, (warnMessageLines loggedChannelsString).map (Ev.notice nick))
    else (r.2, [])

/-! ## `on_join` and `on_leave` -/

/-- Embeds `LoggingCommandBot.on_join` (lines 170-184): fan out to the
join-handler registry under catch-log-continue, then run the privacy
warning logic only for logged channels and identities other than the
bot itself. -/
def onJoin (joinRegistry : List EvHandler) (cfg : Config)
    (wh : WarnHistory) (selfNickname nick channel : String) (now : Int) :
    WarnHistory × List Ev :=
  let fanout := runHandlers joinRegistry
  if channel ∈ cfg.logChannels then
    if nick = selfNickname then (wh, fanout)
    else
      let r := warn cfg wh nick now
      (r.1, fanout ++ r.2)
  else (wh, fanout)

/-- Embeds `LoggingCommandBot.on_leave` (lines 186-194). The loop in
the source iterates `core.JoinHandler._registry` — the join-handler
registry — and never consults the leave-handler registry; both
registries are taken as parameters so this is visible. No warning
logic runs. -/
def onLeave (joinRegistry leaveRegistry : List EvHandler) : List Ev :=
  runHandlers joinRegistry

/-! ## `transmit` -/

inductive SendKind
  | privmsg
  | action
deriving DecidableEq, Repr

/-- The transport's behavior on the send attempt: success, or raising
`irc.client.MessageTooLong` / `irc.client.InvalidCharacters`. -/
inductive SendOutcome
  | ok
  | messageTooLong
  | invalidCharacters
deriving DecidableEq, Repr

structure SendAttempt where
  kind : SendKind
  channel : String
  msg : String
deriving DecidableEq, Repr

/-- The observable outcome of one `transmit` call: the send attempts
made on the connection, the number of warning log records, and the
value returned to the caller (`none` models Python's implicit `None`
after a caught exception). -/
structure TransmitResult where
  attempts : List SendAttempt
  logs : Nat
  returned : Option String
deriving DecidableEq, Repr

/-- Embeds `LoggingCommandBot.transmit` (lines 83-100): choose
`privmsg` or `action` (stripping a leading `/me ` marker), make exactly
one send attempt, and catch `MessageTooLong` / `InvalidCharacters`,
logging a warning and returning normally with no retry. -/
def transmit (channel msg : String) (outcome : SendOutcome) :
    TransmitResult :=
  let p : SendKind × String :=
    if msg.startsWith "/me " then (.action, (msg.drop 4).trimLeft)
    else (.privmsg, msg)
  match outcome with
  | .ok => ⟨[⟨p.1, channel, p.2⟩], 0, some p.2⟩
  | .messageTooLong => ⟨[⟨p.1, channel, p.2⟩], 1, none⟩
  | .invalidCharacters => ⟨[⟨p.1, channel, p.2⟩], 1, none⟩

/-! ## `on_invite` -/

/-- `channel.startswith('#')`: a one-character prefix test, written on
the string's character list so it evaluates by reduction. -/
def startsWithHash (s : String) : Bool :=
  match s.data with
  | [] => false
  | c :: _ => c = '#'

/-- The observable actions of `on_invite`, in order. -/
inductive InviteAct
  | sleep : Nat → InviteAct
  | join : String → InviteAct
  | privmsg : String → String → InviteAct
deriving DecidableEq, Repr

/-- Embeds `LoggingCommandBot.on_invite` (lines 212-221): normalize the
channel name with a `#` prefix when missing, append it to
`self._channels`, sleep one second, join, sleep one second, and send
the fixed acknowledgement naming the inviter to the joined channel. -/
def onInvite (channels : List String) (nick invited : String) :
    List String × List InviteAct :=
  let channel := if startsWithHash invited then invited else "#" ++ invited
  (channels ++ [channel],
   [.sleep 1, .join channel, .sleep 1,
    .privmsg channel ("You summoned me, master " ++ nick ++ "?")])

/-! ## Helper lemmas -/

theorem countInvoked_notices (i : Nat) (nick : String) (lines : List String) :
    countInvoked i (lines.map (Ev.notice nick)) = 0 := by
  induction lines with
  | nil => rfl
  | cons l rest ih => simpa [countInvoked] using ih

theorem countErrorLogged_notices (i : Nat) (nick : String) (lines : List String) :
    countErrorLogged i (lines.map (Ev.notice nick)) = 0 := by
  induction lines with
  | nil => rfl
  | cons l rest ih => simpa [countErrorLogged] using ih

theorem countInvoked_warn (i : Nat) (cfg : Config) (wh : WarnHistory)
    (nick : String) (now : Int) :
    countInvoked i (warn cfg wh nick now).2 = 0 := by
  unfold warn
  by_cases hs : cfg.privacyWarningSuppress
  · simp [hs, countInvoked]
  · by_cases hr : (needsWarning wh nick now).1 = true
    · simp [hs, hr, countInvoked_notices]
    · simp [hs, hr, countInvoked]

theorem countErrorLogged_warn (i : Nat) (cfg : Config) (wh : WarnHistory)
    (nick : String) (now : Int) :
    countErrorLogged i (warn cfg wh nick now).2 = 0 := by
  unfold warn
  by_cases hs : cfg.privacyWarningSuppress
  · simp [hs, countErrorLogged]
  · by_cases hr : (needsWarning wh nick now).1 = true
    · simp [hs, hr, countErrorLogged_notices]
    · simp [hs, hr, countErrorLogged]

theorem countInvoked_append (i : Nat) (a b : List Ev) :
    countInvoked i (a ++ b) = countInvoked i a + countInvoked i b := by
  induction a with
  | nil => simp [countInvoked]
  | cons e rest ih => cases e <;> simp [countInvoked, ih] <;> omega

theorem countErrorLogged_append (i : Nat) (a b : List Ev) :
    countErrorLogged i (a ++ b) = countErrorLogged i a + countErrorLogged i b := by
  induction a with
  | nil => simp [countErrorLogged]
  | cons e rest ih => cases e <;> simp [countErrorLogged, ih] <;> omega

theorem countInvoked_runHandlers (registry : List EvHandler) (i : Nat) :
    countInvoked i (runHandlers registry)
      = (registry.filter (fun h => decide (h.id = i))).length := by
  induction registry with
  | nil => rfl
  | cons h rest ih =>
    by_cases hr : h.raises <;> by_cases hi : h.id = i <;>
      simp [runHandlers, countInvoked, List.filter_cons, hr, hi, ih] <;> omega

theorem countErrorLogged_runHandlers (registry : List EvHandler) (i : Nat) :
    countErrorLogged i (runHandlers registry)
      = (registry.filter (fun h => decide (h.id = i) && h.raises)).length := by
  induction registry with
  | nil => rfl
  | cons h rest ih =>
    by_cases hr : h.raises <;> by_cases hi : h.id = i <;>
      simp [runHandlers, countErrorLogged, List.filter_cons, hr, hi, ih] <;> omega

theorem countInvoked_onJoin (joinRegistry : List EvHandler) (cfg : Config)
    (wh : WarnHistory) (selfNickname nick channel : String) (now : Int) (i : Nat) :
    countInvoked i (onJoin joinRegistry cfg wh selfNickname nick channel now).2
      = countInvoked i (runHandlers joinRegistry) := by
  unfold onJoin
  by_cases hc : channel ∈ cfg.logChannels
  · by_cases hn : nick = selfNickname
    · simp [hc, hn]
    · simp [hc, hn, countInvoked_append, countInvoked_warn]
  · simp [hc]

theorem countErrorLogged_onJoin (joinRegistry : List EvHandler) (cfg : Config)
    (wh : WarnHistory) (selfNickname nick channel : String) (now : Int) (i : Nat) :
    countErrorLogged i (onJoin joinRegistry cfg wh selfNickname nick channel now).2
      = countErrorLogged i (runHandlers joinRegistry) := by
  unfold onJoin
  by_cases hc : channel ∈ cfg.logChannels
  · by_cases hn : nick = selfNickname
    · simp [hc, hn]
    · simp [hc, hn, countErrorLogged_append, countErrorLogged_warn]
  · simp [hc]

theorem scheduleAt_mem (st : SchedState) (name channel : String) (w : When)
    (func : Nat) (doc : String)
    (hmem : (⟨func, name, channel, w, doc⟩ : TaskKey) ∈ st.scheduledTasks) :
    scheduleAt st name channel w func doc = (st, .ok ()) := by
  simp [scheduleAt, hmem]

/-! ## Claim theorems -/

/-- Claim C1: on an identityJoined event, each externally registered
join-handler is invoked exactly as many times as it occurs in the
registry (once, for a registry of distinct handlers), regardless of
which handlers raise; each raising handler's exception is caught and
logged exactly once; and the dispatch path is a total function, so no
handler fault propagates out of it. The closed conjunct is the spec's
three-handler scenario: with the second handler raising, handlers one
and three still run once each and the error is reported once. -/
theorem onJoin_fanout_isolation (joinRegistry : List EvHandler) (cfg : Config)
    (wh : WarnHistory) (selfNickname nick channel : String) (now : Int) (i : Nat) :
    countInvoked i (onJoin joinRegistry cfg wh selfNickname nick channel now).2
      = (joinRegistry.filter (fun h => decide (h.id = i))).length
    ∧ countErrorLogged i (onJoin joinRegistry cfg wh selfNickname nick channel now).2
      = (joinRegistry.filter (fun h => decide (h.id = i) && h.raises)).length
    ∧ (onJoin [⟨1, false⟩, ⟨2, true⟩, ⟨3, false⟩] ⟨false, []⟩ [] "bot" "alice" "#c" 0).2
      = [Ev.invoked 1, Ev.invoked 2, Ev.errorLogged 2, Ev.invoked 3] := by
  refine ⟨?_, ?_, rfl⟩
  · rw [countInvoked_onJoin, countInvoked_runHandlers]
  · rw [countErrorLogged_onJoin, countErrorLogged_runHandlers]

/-- Claim C2: scheduling is idempotent on the identity key
`(func, name, channel, when, doc)`. A first registration of a fresh key
with a valid `when` arms exactly one timer and reports no error; a
second registration with the same key short-circuits: same state, no
new timer, no error. -/
theorem scheduleAt_dedup_idempotent (st : SchedState) (name channel : String)
    (w : When) (func : Nat) (doc : String)
    (hnew : (⟨func, name, channel, w, doc⟩ : TaskKey) ∉ st.scheduledTasks)
    (hvalid : w ≠ When.other) :
    (scheduleAt st name channel w func doc).1.timers.length = st.timers.length + 1
    ∧ (scheduleAt st name channel w func doc).2 = Except.ok ()
    ∧ scheduleAt (scheduleAt st name channel w func doc).1 name channel w func doc
      = ((scheduleAt st name channel w func doc).1, Except.ok ()) := by
  have hmem2 : (⟨func, name, channel, w, doc⟩ : TaskKey)
      ∈ st.scheduledTasks ++ [(⟨func, name, channel, w, doc⟩ : TaskKey)] := by
    simp
  cases w with
  | dt x =>
    refine ⟨?_, ?_, ?_⟩ <;>
      simp [scheduleAt, hnew, When.isinstanceDate, combineWithTime, hmem2]
  | d x =>
    refine ⟨?_, ?_, ?_⟩ <;>
      simp [scheduleAt, hnew, When.isinstanceDate, combineWithTime, hmem2]
  | t x =>
    refine ⟨?_, ?_, ?_⟩ <;>
      simp [scheduleAt, hnew, When.isinstanceDate, combineWithTime, hmem2]
  | other => exact absurd rfl hvalid

theorem scheduleAt_dedup_idempotent_witness :
    (scheduleAt ⟨[], []⟩ "tea" "#inane" (When.t ⟨16, 0, 0⟩) 5 "tea time").1.timers.length
      = (SchedState.mk [] []).timers.length + 1
    ∧ (scheduleAt ⟨[], []⟩ "tea" "#inane" (When.t ⟨16, 0, 0⟩) 5 "tea time").2 = Except.ok ()
    ∧ scheduleAt (scheduleAt ⟨[], []⟩ "tea" "#inane" (When.t ⟨16, 0, 0⟩) 5 "tea time").1
        "tea" "#inane" (When.t ⟨16, 0, 0⟩) 5 "tea time"
      = ((scheduleAt ⟨[], []⟩ "tea" "#inane" (When.t ⟨16, 0, 0⟩) 5 "tea time").1,
         Except.ok ()) :=
  scheduleAt_dedup_idempotent ⟨[], []⟩ "tea" "#inane" (When.t ⟨16, 0, 0⟩) 5 "tea time"
    (by simp) (by simp)

/-- Claim C3 is violated by the code: a `datetime` value also passes the
`isinstance(when, datetime.date)` test (Python subclassing), so
`datetime.combine` discards its time component and the single-fire
timer for the absolute date-time 2024-01-15 12:30:00 is armed at
2024-01-15 00:00:00 UTC, not at the exact point. The second conjunct
shows the `Date` half of the claim does hold: a bare date is armed at
00:00:00 UTC of that date. -/
theorem scheduleAt_instant_truncated_to_midnight :
    (scheduleAt ⟨[], []⟩ "announce" "#chan"
        (When.dt ⟨⟨2024, 1, 15⟩, ⟨12, 30, 0⟩⟩) 3 "d").1.timers
      = [Cmd.delayedAt ⟨⟨2024, 1, 15⟩, ⟨0, 0, 0⟩⟩ [PyVal.str "#chan", PyVal.func 3]]
    ∧ (scheduleAt ⟨[], []⟩ "announce" "#chan" (When.d ⟨2024, 1, 15⟩) 3 "d").1.timers
      = [Cmd.delayedAt ⟨⟨2024, 1, 15⟩, ⟨0, 0, 0⟩⟩ [PyVal.str "#chan", PyVal.func 3]] :=
  ⟨rfl, rfl⟩

/-- Claim C4 is violated by the code: `on_leave` iterates the
join-handler registry, not the leave-handler registry. With one
leave-handler (id 1) and one join-handler (id 2) registered, an
identityLeft event invokes handler 2 and never invokes handler 1. -/
theorem onLeave_runs_join_registry :
    onLeave [⟨2, false⟩] [⟨1, false⟩] = [Ev.invoked 2]
    ∧ countInvoked 1 (onLeave [⟨2, false⟩] [⟨1, false⟩]) = 0 :=
  ⟨rfl, rfl⟩

/-- Claim C5 is violated by the code: `on_welcome` pre-binds the single
tuple `(handler.channel, handler.func)` — not the two elements — into
the runner callable, so firing the armed timer calls
`background_runner` with one positional argument and raises
`TypeError`; the handler never executes. -/
theorem armDelayHandlers_runner_arity :
    armDelayHandlers [⟨"#chan", 7, false, 30⟩]
      = [Cmd.delayed 30 [PyVal.pair (PyVal.str "#chan") (PyVal.func 7)]]
    ∧ fire (Cmd.delayed 30 [PyVal.pair (PyVal.str "#chan") (PyVal.func 7)])
      = .error (.typeError
          "background_runner takes 2 positional arguments but 1 were given") :=
  ⟨rfl, rfl⟩

/-- Claim C6: `needs_warning` returns true iff the identity is absent
from the warn record or now minus its last-warned timestamp strictly
exceeds the 60-second cooldown; on true it records now, on false it
leaves the record unchanged; and for an identity warned at t0, a query
at t0+30 returns false (no state change) while a query at t0+61
returns true (timestamp updated). -/
theorem needsWarning_spec (wh : WarnHistory) (key : String) (now : Int) :
    ((needsWarning wh key now).1 = true
      ↔ lookup wh key = none ∨ ∃ last, lookup wh key = some last ∧ now - last > 60)
    ∧ ((needsWarning wh key now).1 = true →
        (needsWarning wh key now).2 = setKey wh key now)
    ∧ ((needsWarning wh key now).1 = false → (needsWarning wh key now).2 = wh)
    ∧ (∀ t0 : Int, needsWarning [(key, t0)] key (t0 + 30) = (false, [(key, t0)])
        ∧ needsWarning [(key, t0)] key (t0 + 61) = (true, [(key, t0 + 61)])) := by
  refine ⟨?_, ?_, ?_, ?_⟩
  · cases hl : lookup wh key with
    | none => simp [needsWarning, hl]
    | some last =>
      by_cases he : expired last now = true
      · simp only [needsWarning, hl, he, if_true]
        simp only [expired, warnEvery, decide_eq_true_eq] at he
        simp [he]
      · simp only [needsWarning, hl, he, if_false, Bool.false_eq_true]
        simp only [expired, warnEvery, decide_eq_true_eq] at he
        simp [he]
  · intro ht
    cases hl : lookup wh key with
    | none => simp [needsWarning, hl]
    | some last =>
      by_cases he : expired last now = true
      · simp [needsWarning, hl, he]
      · simp [needsWarning, hl, he] at ht
  · intro hf
    cases hl : lookup wh key with
    | none => simp [needsWarning, hl] at hf
    | some last =>
      by_cases he : expired last now = true
      · simp [needsWarning, hl, he] at hf
      · simp [needsWarning, hl, he]
  · intro t0
    have h30 : expired t0 (t0 + 30) = false := by
      simp only [expired, warnEvery, decide_eq_false_iff_not]
      omega
    have h61 : expired t0 (t0 + 61) = true := by
      simp only [expired, warnEvery, decide_eq_true_eq]
      omega
    constructor
    · simp [needsWarning, lookup, h30]
    · simp [needsWarning, lookup, setKey, h61]

theorem needsWarning_spec_witness :
    (needsWarning [("alice", (0 : Int))] "alice" 61).2
      = setKey [("alice", (0 : Int))] "alice" 61 :=
  (needsWarning_spec [("alice", (0 : Int))] "alice" 61).2.1 (by rfl)

/-- Claim C7: with the global suppression flag set, `warn` returns
before any warn-record lookup or update — the record is returned
unchanged and no notice is sent, for every identity and state. -/
theorem warn_suppressed (cfg : Config) (wh : WarnHistory) (nick : String)
    (now : Int) (h : cfg.privacyWarningSuppress = true) :
    warn cfg wh nick now = (wh, []) := by
  simp [warn, h]

theorem warn_suppressed_witness :
    warn ⟨true, ["#logged"]⟩ [("bob", 5)] "bob" 1000 = ([("bob", 5)], []) :=
  warn_suppressed ⟨true, ["#logged"]⟩ [("bob", 5)] "bob" 1000 rfl

/-- Claim C8: when the transport send raises too-long or
invalid-characters, `transmit` makes exactly one send attempt (no
retry), logs exactly one warning, and returns normally with `None`
(no re-raise), for every channel and message. -/
theorem transmit_drops_failed_sends (channel msg : String) :
    ((transmit channel msg SendOutcome.messageTooLong).attempts.length = 1
      ∧ (transmit channel msg SendOutcome.messageTooLong).logs = 1
      ∧ (transmit channel msg SendOutcome.messageTooLong).returned = none)
    ∧ ((transmit channel msg SendOutcome.invalidCharacters).attempts.length = 1
      ∧ (transmit channel msg SendOutcome.invalidCharacters).logs = 1
      ∧ (transmit channel msg SendOutcome.invalidCharacters).returned = none) :=
  ⟨⟨rfl, rfl, rfl⟩, ⟨rfl, rfl, rfl⟩⟩

/-- Claim C9: for an invite naming a channel without the `#` prefix,
the prefix is added, the normalized channel is appended to the tracked
channel list, and the action sequence is exactly: one-second wait, one
join of the normalized channel, one-second wait, and exactly one
acknowledgement message — the fixed text naming the inviter — sent to
the joined channel. -/
theorem onInvite_spec (channels : List String) (nick invited : String)
    (h : startsWithHash invited = false) :
    onInvite channels nick invited
      = (channels ++ ["#" ++ invited],
         [InviteAct.sleep 1, InviteAct.join ("#" ++ invited), InviteAct.sleep 1,
          InviteAct.privmsg ("#" ++ invited)
            ("You summoned me, master " ++ nick ++ "?")]) := by
  simp [onInvite, h]

theorem onInvite_spec_witness :
    onInvite [] "overlord" "chat"
      = (["#chat"],
         [InviteAct.sleep 1, InviteAct.join "#chat", InviteAct.sleep 1,
          InviteAct.privmsg "#chat" "You summoned me, master overlord?"]) :=
  onInvite_spec [] "overlord" "chat" (by rfl)

/-- Claim C10: for a `when` of invalid shape, the identity key is added
to the dedup set and the call reports `ValueError` while the mutation
persists (timers unchanged); a second registration with the same key is
then silently short-circuited as a duplicate — no timer, no error, no
re-validation. -/
theorem scheduleAt_invalid_when_poisons_dedup (st : SchedState)
    (name channel : String) (func : Nat) (doc : String)
    (hnew : (⟨func, name, channel, When.other, doc⟩ : TaskKey) ∉ st.scheduledTasks) :
    scheduleAt st name channel When.other func doc
      = ({ st with scheduledTasks :=
            st.scheduledTasks ++ [⟨func, name, channel, When.other, doc⟩] },
         Except.error (PyError.valueError "when must be datetime, date, or time"))
    ∧ scheduleAt
        { st with scheduledTasks :=
            st.scheduledTasks ++ [⟨func, name, channel, When.other, doc⟩] }
        name channel When.other func doc
      = ({ st with scheduledTasks :=
            st.scheduledTasks ++ [⟨func, name, channel, When.other, doc⟩] },
         Except.ok ()) := by
  constructor
  · simp [scheduleAt, hnew, When.isinstanceDate]
  · exact scheduleAt_mem _ _ _ _ _ _ (by simp)

theorem scheduleAt_invalid_when_poisons_dedup_witness :
    scheduleAt ⟨[], []⟩ "bad" "#chan" When.other 9 "d"
      = ({ scheduledTasks := [⟨9, "bad", "#chan", When.other, "d"⟩], timers := [] },
         Except.error (PyError.valueError "when must be datetime, date, or time"))
    ∧ scheduleAt ⟨[⟨9, "bad", "#chan", When.other, "d"⟩], []⟩ "bad" "#chan" When.other 9 "d"
      = (⟨[⟨9, "bad", "#chan", When.other, "d"⟩], []⟩, Except.ok ()) :=
  scheduleAt_invalid_when_poisons_dedup ⟨[], []⟩ "bad" "#chan" 9 "d" (by simp)

end Pmxbot
